import Mathlib

/-!
Verification of the straddle decision-and-lifecycle engine.

Shallow embedding of the two Python variants in this repository
(`improved_options.py` and `alpaca_options_bot.py`).  Python floats are
modelled as rationals (`ℚ`): every decision in the engine is a field
comparison or a floor, so the control flow is identical over any ordered
field.  External collaborators (market data, broker) are passed in as
explicit arguments; fallible lookups become `Option`.  Numeric
subroutines that the decision logic treats as opaque (numpy's standard
deviation and logarithm pipeline) are passed in as function parameters,
since no claim depends on their values, only on the control flow around
them.
-/

/-- Option kind (`ContractType.CALL` / `ContractType.PUT` in the source). -/
inductive ContractType
  | call
  | put
deriving DecidableEq

/-- One tradable option contract, as both scripts see it: underlying/OCC
symbol, strike, expiration (modelled as an ordinal day number; the source
compares ISO date strings, whose lexicographic order is the same order),
kind, and the observable prices the scripts read (`close_price` in
`improved_options.py`, `price` in `alpaca_options_bot.py`) plus its
implied volatility (the source defaults a missing IV to 0 via
`.get('implied_volatility', 0)`). -/
structure OptionContract where
  symbol : String
  strike_price : ℚ
  expiration_date : ℕ
  type : ContractType
  close_price : ℚ
  price : ℚ
  implied_volatility : ℚ
deriving DecidableEq

/-- A position as reported by the broker (`trading_client.get_all_positions()`);
only the symbol is consulted by the entry guard. -/
structure BrokerPosition where
  symbol : String
deriving DecidableEq

/-- `StraddlePosition` from `alpaca_options_bot.py`: the bot's in-memory
record of an open straddle (the wall-clock `entry_time` field is omitted:
no claim mentions it). -/
structure StraddlePosition where
  call_contract : OptionContract
  put_contract : OptionContract
  entry_iv : ℚ
  entry_price : ℚ
  quantity : ℤ
deriving DecidableEq

/-- Python's `str.startswith`, written out over the character lists so that
it evaluates inside the kernel. -/
def charListStarts : List Char → List Char → Bool
  | _, [] => true
  | [], _ :: _ => false
  | c :: cs, d :: ds => c == d && charListStarts cs ds

/-- `s.startswith(p)` in Python. -/
def pyStartsWith (s p : String) : Bool := charListStarts s.data p.data

/-- Python's `int(x)` on a float: truncation toward zero. -/
def pyInt (q : ℚ) : ℤ := if 0 ≤ q then ⌊q⌋ else -⌊-q⌋

/-- The first element of a list attaining the minimal value of `f`,
scanning left to right; `none` on the empty list.  This is the semantics
of Python's built-in `min(..., key=f)` (which keeps the earliest minimum)
and also the specification's "ties broken by first-encountered order"
selection rule. -/
def firstMinBy {α : Type} (f : α → ℚ) : List α → Option α
  | [] => none
  | a :: l =>
    match firstMinBy f l with
    | none => some a
    | some b => if f b < f a then some b else some a

/-- One step of a running-minimum scan: replace the current best only when
the new candidate is strictly better (the source's `diff < min_diff`). -/
def minStepBy {α : Type} (f : α → ℚ) (best : Option α) (c : α) : Option α :=
  match best with
  | none => some c
  | some b => if f c < f b then some c else some b

/-- The filter applied inside `find_nearest_strike_contract`
(`improved_options.py`, lines 211-223): the contract must have the
requested kind, and when `otm_only` is set, in-the-money contracts (calls
with strike ≤ target, puts with strike ≥ target) are skipped. -/
def passesFilter (target_price : ℚ) (is_call otm_only : Bool) (c : OptionContract) : Bool :=
  decide (c.type = (if is_call then ContractType.call else ContractType.put))
    && (!otm_only
        || (if is_call then decide (target_price < c.strike_price)
            else decide (c.strike_price < target_price)))

/-- One loop iteration of `find_nearest_strike_contract`: contracts
failing the filter leave the running best untouched; passing contracts
update it when their strike is strictly closer to the target. -/
def nearestStep (target_price : ℚ) (is_call otm_only : Bool)
    (best : Option OptionContract) (c : OptionContract) : Option OptionContract :=
  if passesFilter target_price is_call otm_only c then
    minStepBy (fun d => |d.strike_price - target_price|) best c
  else best

/-- `find_nearest_strike_contract` (`improved_options.py`, lines 192-239):
left fold of the loop body over the supplied listing, starting from
`closest_contract = None`, `min_diff = inf`. -/
def find_nearest_strike_contract (contracts : List OptionContract) (target_price : ℚ)
    (is_call otm_only : Bool) : Option OptionContract :=
  contracts.foldl (nearestStep target_price is_call otm_only) none

/-- `find_suitable_contracts` (`improved_options.py`, lines 241-260): give
up on an empty chain or a missing price, otherwise pick the nearest-strike
call and put (note the source leaves `otm_only` at its default `True`). -/
def find_suitable_contracts (contracts : List OptionContract) (current_price : Option ℚ) :
    Option (OptionContract × OptionContract) :=
  if contracts.isEmpty then none
  else
    match current_price with
    | none => none
    | some p =>
      match find_nearest_strike_contract contracts p true true,
            find_nearest_strike_contract contracts p false true with
      | some c, some q => some (c, q)
      | _, _ => none

/-- The position sizer (`improved_options.py`, lines 520-521):
`position_size = min(int(options_buying_power // cost_basis), maxStraddles)`.
The source instantiates `maxStraddles` with the literal `1`; float floor
division followed by `int` is `⌊·⌋`. -/
def computeStraddleQuantity (buyingPower perStraddleCost : ℚ) (maxStraddles : ℤ) : ℤ :=
  min ⌊buyingPower / perStraddleCost⌋ maxStraddles

/-- The observable outcome of one call to `execute_volatility_straddle`.
`ordered call put sizingCost qty` records that
`place_straddle_order(call, put, quantity=qty)` was invoked after the
sizing computation produced `sizingCost` as the per-straddle cost. -/
inductive StraddleOutcome
  | skippedExisting
  | volUnavailable
  | noEntry
  | noPrice
  | noContracts
  | marketClosed
  | ordered (call put : OptionContract) (sizingCost : ℚ) (quantity : ℤ)
deriving DecidableEq

/-- True exactly on the outcomes reached from inside the
`current_iv > 1.2 * historical_iv` branch of `execute_volatility_straddle`
(the straddle order submission path of lines 500-529). -/
def StraddleOutcome.enteredEntry : StraddleOutcome → Bool
  | .noPrice => true
  | .noContracts => true
  | .marketClosed => true
  | .ordered _ _ _ _ => true
  | _ => false

/-- `execute_volatility_straddle` (`improved_options.py`, lines 483-533),
with all collaborator reads passed in: the broker position list, the two
volatility estimates (`None` on failure), the latest price, the option
chain, the market-hours gate and the account's options buying power. -/
def execute_volatility_straddle (symbol : String) (positions : List BrokerPosition)
    (historical_iv current_iv : Option ℚ) (current_price : Option ℚ)
    (contracts : List OptionContract) (marketOpen : Bool)
    (options_buying_power : ℚ) : StraddleOutcome :=
  if positions.any (fun p => pyStartsWith p.symbol symbol) then .skippedExisting
  else
    match historical_iv, current_iv with
    | some h, some i =>
      if i > 1.2 * h then
        match current_price with
        | none => .noPrice
        | some _ =>
          match find_suitable_contracts contracts current_price with
          | some (call_contract, put_contract) =>
            if !marketOpen then .marketClosed
            else
              let cost_basis := (call_contract.close_price + put_contract.close_price) * 2
              let position_size := computeStraddleQuantity options_buying_power cost_basis 1
              .ordered call_contract put_contract cost_basis position_size
          | none => .noContracts
      else .noEntry
    | _, _ => .volUnavailable

/-- `np.diff(prices) / prices[:-1]` from `get_historical_volatility` in
`improved_options.py`. -/
def simpleReturns : List ℚ → List ℚ
  | a :: b :: rest => (b - a) / a :: simpleReturns (b :: rest)
  | _ => []

/-- `get_historical_volatility` (`improved_options.py`, lines 97-118):
fewer than 2 prices gives `None`; otherwise the annualized standard
deviation of the simple returns.  `annualizedStd` abstracts
`np.std(returns) * np.sqrt(252)` (an opaque numeric collaborator: no
claim depends on its value, and the dimension/NaN guards of the source
cannot fire over `ℚ`). -/
def improved_get_historical_volatility (annualizedStd : List ℚ → ℚ) (prices : List ℚ) :
    Option ℚ :=
  if prices.length < 2 then none
  else some (annualizedStd (simpleReturns prices))

/-- `get_historical_volatility` (`alpaca_options_bot.py`, lines 29-60):
fewer than 20 forward-filled closes gives the sentinel `0.0`; otherwise
the annualized standard deviation of the log returns, abstracted as
`annualizedStd` (for `np.sqrt(252) * log_returns.std()`). -/
def alpaca_get_historical_volatility (annualizedStd : List ℚ → ℚ) (closes : List ℚ) : ℚ :=
  if closes.length < 20 then 0 else annualizedStd closes

/-- One row of a yfinance option chain as `get_current_iv` in
`improved_options.py` reads it: a strike and a possibly-missing implied
volatility (`None`/absent rows are skipped by the source). -/
structure YfinanceOptionRow where
  strike : ℚ
  impliedVolatility : Option ℚ
deriving DecidableEq

/-- One yfinance option chain: the call and put tables returned by
`Ticker(symbol).option_chain(expiry)`. -/
structure YfinanceChain where
  calls : List YfinanceOptionRow
  puts : List YfinanceOptionRow
deriving DecidableEq

/-- `get_current_iv` (`improved_options.py`, lines 120-136): take the
first available expiry's chain and return `np.mean` of the implied
volatilities of all its call rows, `None` when there is no chain or no
IV; the put table and the strikes are never consulted. -/
def improved_get_current_iv (chains : List YfinanceChain) : Option ℚ :=
  match chains with
  | [] => none
  | chain :: _ =>
    let ivs := chain.calls.filterMap (fun c => c.impliedVolatility)
    if ivs.isEmpty then none else some (ivs.sum / (ivs.length : ℚ))

/-- `min(expirations)` over all contracts of the symbol
(`alpaca_options_bot.py`, line 80); `none` when the chain is empty. -/
def alpaca_nearest_expiration (contracts : List OptionContract) : Option ℕ :=
  match contracts.map (fun c => c.expiration_date) with
  | [] => none
  | e :: es => some (es.foldl min e)

/-- `sorted([c.strike_price for c in contracts if c.expiration_date == nearest_exp])`
(`alpaca_options_bot.py`, line 84). -/
def alpaca_strikes_at (contracts : List OptionContract) (nearestExp : ℕ) : List ℚ :=
  List.insertionSort (· ≤ ·)
    ((contracts.filter (fun c => c.expiration_date == nearestExp)).map
      (fun c => c.strike_price))

/-- `atm_strike = min(strikes, key=lambda x: abs(x - last_price))`
(`alpaca_options_bot.py`, line 89), composed with the nearest-expiration
lookup; `none` when either list is empty (the source returns `0.0`). -/
def alpaca_atm_strike (contracts : List OptionContract) (last_price : ℚ) : Option ℚ :=
  match alpaca_nearest_expiration contracts with
  | none => none
  | some nexp => firstMinBy (fun s => |s - last_price|) (alpaca_strikes_at contracts nexp)

/-- `next((c for c in contracts if c.strike_price == atm and c.type == k), None)`
(`alpaca_options_bot.py`, lines 92-93 and 121-122).  Note the source scans
all contracts of the symbol, with no expiration filter. -/
def find_leg (contracts : List OptionContract) (atm : ℚ) (k : ContractType) :
    Option OptionContract :=
  contracts.find? (fun c => decide (c.strike_price = atm ∧ c.type = k))

/-- `get_current_iv` (`alpaca_options_bot.py`, lines 62-106): average of
the implied volatilities of the first call and first put found at the ATM
strike; `0.0` on any failure. -/
def alpaca_get_current_iv (contracts : List OptionContract) (last_price : ℚ) : ℚ :=
  match alpaca_atm_strike contracts last_price with
  | none => 0
  | some atm =>
    match find_leg contracts atm .call, find_leg contracts atm .put with
    | some call, some put => (call.implied_volatility + put.implied_volatility) / 2
    | _, _ => 0

/-- `execute_straddle` (`alpaca_options_bot.py`, lines 108-149): resolve
the ATM call and put, submit a buy order for each leg (`submitOk` models
acceptance of both `submit_order` calls; any raised failure lands in the
`except` branch returning `None`), and on success build the
`StraddlePosition` with `total_cost = (call.price + put.price) * 100 * quantity`
and entry IV the average of the leg IVs. -/
def execute_straddle (contracts : List OptionContract) (last_price : ℚ)
    (quantity : ℤ) (submitOk : Bool) : Option StraddlePosition :=
  match alpaca_atm_strike contracts last_price with
  | none => none
  | some atm =>
    match find_leg contracts atm .call, find_leg contracts atm .put with
    | some call, some put =>
      if submitOk then
        some { call_contract := call
               put_contract := put
               entry_iv := (call.implied_volatility + put.implied_volatility) / 2
               entry_price := (call.price + put.price) * 100 * (quantity : ℚ)
               quantity := quantity }
      else none
    | _, _ => none

/-- Outcome of the entry part of one `main` loop iteration in
`alpaca_options_bot.py`: either the entry condition failed, or the sizer
produced 0 and the guarded `execute_straddle` call was skipped, or
`execute_straddle` was invoked with the computed quantity. -/
inductive AlpacaCycleOutcome
  | noEntry
  | zeroQuantity
  | submitted (quantity : ℤ) (result : Option StraddlePosition)
deriving DecidableEq

/-- The entry logic of `main` (`alpaca_options_bot.py`, lines 184-194):
`if current_iv > hv * 1.2 and not active_positions`, then
`max_quantity = min(int((equity * 0.02) / 950), 1)` and `execute_straddle`
only when `max_quantity > 0`.  `executeResult` abstracts the broker's
response for a given quantity. -/
def alpaca_main_cycle (activePositionsEmpty : Bool) (hv current_iv equity : ℚ)
    (executeResult : ℤ → Option StraddlePosition) : AlpacaCycleOutcome :=
  if current_iv > hv * 1.2 ∧ activePositionsEmpty = true then
    let straddle_price : ℚ := (5 + 4.5) * 100
    let max_quantity := min (pyInt ((equity * 0.02) / straddle_price)) 1
    if max_quantity > 0 then .submitted max_quantity (executeResult max_quantity)
    else .zeroQuantity
  else .noEntry

/-- The exit test of `monitor_positions` (`alpaca_options_bot.py`, line
162): close when `abs(pl_pct) >= 0.5` or `current_iv < entry_iv * 0.8`. -/
def monitor_exit_condition (current_iv : ℚ) (pos : StraddlePosition)
    (call_value put_value : ℚ) : Bool :=
  let total_value := call_value + put_value
  let pl_pct := (total_value - pos.entry_price) / pos.entry_price
  decide (|pl_pct| ≥ 0.5) || decide (current_iv < pos.entry_iv * 0.8)

/-- One pass of the `monitor_positions` loop (`alpaca_options_bot.py`,
lines 151-166): `current_iv = get_current_iv("SPY")` is computed once, and
every position whose exit test fires is closed and removed.  `ivOf` is the
per-symbol implied-volatility collaborator and `marketValueOf` the
per-symbol `get_position(...).market_value` lookup.  The survivors are
returned. -/
def monitor_positions_step (ivOf : String → ℚ) (marketValueOf : String → ℚ)
    (active_positions : List StraddlePosition) : List StraddlePosition :=
  let current_iv := ivOf "SPY"
  active_positions.filter (fun pos =>
    !(monitor_exit_condition current_iv pos
        (marketValueOf pos.call_contract.symbol)
        (marketValueOf pos.put_contract.symbol)))

/-- Modelled from the spec: "identify the nearest-expiring option
contracts, determine the at-the-money strike (strike minimizing absolute
distance to last traded underlying price), and average the implied
volatilities of the ATM call and ATM put.  Fails soft (`undefined`) if
either leg or an expiration cannot be resolved."  This is the claim's
reference semantics for `currentImpliedVolatility`, used to compare
against what the code computes. -/
def specAtmPairAverage (contracts : List OptionContract) (last_price : ℚ) : Option ℚ :=
  match alpaca_nearest_expiration contracts with
  | none => none
  | some nexp =>
    let nearContracts := contracts.filter (fun c => c.expiration_date == nexp)
    match firstMinBy (fun s => |s - last_price|) (nearContracts.map (fun c => c.strike_price)) with
    | none => none
    | some atm =>
      match nearContracts.find? (fun c => decide (c.strike_price = atm ∧ c.type = ContractType.call)),
            nearContracts.find? (fun c => decide (c.strike_price = atm ∧ c.type = ContractType.put)) with
      | some call, some put => some ((call.implied_volatility + put.implied_volatility) / 2)
      | _, _ => none

/-- A concrete out-of-the-money call used in the concrete evaluations. -/
def demoCall : OptionContract :=
  { symbol := "SPY250620C00105000", strike_price := 105, expiration_date := 20250620
    type := ContractType.call, close_price := 3/2, price := 2, implied_volatility := 3/10 }

/-- A concrete out-of-the-money put used in the concrete evaluations. -/
def demoPut : OptionContract :=
  { symbol := "SPY250620P00095000", strike_price := 95, expiration_date := 20250620
    type := ContractType.put, close_price := 1, price := 9/5, implied_volatility := 1/5 }

/-- A concrete at-the-money call used in the concrete evaluations. -/
def atmCall : OptionContract :=
  { symbol := "SPY250620C00100000", strike_price := 100, expiration_date := 20250620
    type := ContractType.call, close_price := 6/5, price := 2, implied_volatility := 3/10 }

/-- A concrete at-the-money put used in the concrete evaluations. -/
def atmPut : OptionContract :=
  { symbol := "SPY250620P00100000", strike_price := 100, expiration_date := 20250620
    type := ContractType.put, close_price := 1, price := 9/5, implied_volatility := 1/5 }

/-- A second call at the mirrored strike 95, tying with `demoCall` at
distance 5 from a target of 100. -/
def tieCall : OptionContract :=
  { symbol := "SPY250620C00095000", strike_price := 95, expiration_date := 20250620
    type := ContractType.call, close_price := 1, price := 1, implied_volatility := 1/5 }

/-- A call at strike 100 with IV 1/5, for the current-IV comparison. -/
def ivCall100 : OptionContract :=
  { symbol := "XYZ250620C00100000", strike_price := 100, expiration_date := 20250620
    type := ContractType.call, close_price := 0, price := 0, implied_volatility := 1/5 }

/-- A call at strike 110 with IV 3/5, for the current-IV comparison. -/
def ivCall110 : OptionContract :=
  { symbol := "XYZ250620C00110000", strike_price := 110, expiration_date := 20250620
    type := ContractType.call, close_price := 0, price := 0, implied_volatility := 3/5 }

/-- A put at strike 100 with IV 2/5, for the current-IV comparison. -/
def ivPut100 : OptionContract :=
  { symbol := "XYZ250620P00100000", strike_price := 100, expiration_date := 20250620
    type := ContractType.put, close_price := 0, price := 0, implied_volatility := 2/5 }

theorem decide_call_call : decide (ContractType.call = ContractType.call) = true := by rfl

theorem decide_call_put : decide (ContractType.call = ContractType.put) = false := by rfl

theorem decide_put_call : decide (ContractType.put = ContractType.call) = false := by rfl

theorem decide_put_put : decide (ContractType.put = ContractType.put) = true := by rfl

theorem foldl_nearestStep (t : ℚ) (ic oo : Bool) (l : List OptionContract)
    (acc : Option OptionContract) :
    l.foldl (nearestStep t ic oo) acc
      = (l.filter (passesFilter t ic oo)).foldl
          (minStepBy (fun d => |d.strike_price - t|)) acc := by
  induction l generalizing acc with
  | nil => rfl
  | cons c cs ih =>
    by_cases h : passesFilter t ic oo c
    · simp [List.foldl_cons, List.filter_cons, h, nearestStep, ih]
    · simp [List.foldl_cons, List.filter_cons, h, nearestStep, ih]

theorem foldl_minStepBy_some {α : Type} (f : α → ℚ) (l : List α) (b : α) :
    l.foldl (minStepBy f) (some b) = firstMinBy f (b :: l) := by
  induction l generalizing b with
  | nil => rfl
  | cons c cs ih =>
    rw [List.foldl_cons]
    have step : minStepBy f (some b) c = some (if f c < f b then c else b) := by
      by_cases h : f c < f b <;> simp [minStepBy, h]
    rw [step, ih]
    cases hm : firstMinBy f cs with
    | none => by_cases hcb : f c < f b <;> simp [firstMinBy, hm, hcb]
    | some m =>
      by_cases hcb : f c < f b <;> by_cases hmc : f m < f c <;> by_cases hmb : f m < f b <;>
          simp [firstMinBy, hm, hcb, hmc, hmb] <;>
        first
        | rfl
        | (exfalso; linarith)

theorem foldl_minStepBy_none {α : Type} (f : α → ℚ) (l : List α) :
    l.foldl (minStepBy f) none = firstMinBy f l := by
  cases l with
  | nil => rfl
  | cons c cs => rw [List.foldl_cons]; exact foldl_minStepBy_some f cs c

theorem find_nearest_eq_firstMinBy (contracts : List OptionContract) (t : ℚ) (ic oo : Bool) :
    find_nearest_strike_contract contracts t ic oo
      = firstMinBy (fun d => |d.strike_price - t|)
          (contracts.filter (passesFilter t ic oo)) := by
  unfold find_nearest_strike_contract
  rw [foldl_nearestStep, foldl_minStepBy_none]

theorem firstMinBy_eq_none {α : Type} (f : α → ℚ) (l : List α) :
    firstMinBy f l = none ↔ l = [] := by
  cases l with
  | nil => simp [firstMinBy]
  | cons c cs =>
    cases hm : firstMinBy f cs with
    | none => simp [firstMinBy, hm]
    | some m => by_cases hmc : f m < f c <;> simp [firstMinBy, hm, hmc]

theorem firstMinBy_mem {α : Type} (f : α → ℚ) {l : List α} {a : α}
    (h : firstMinBy f l = some a) : a ∈ l := by
  induction l with
  | nil => simp [firstMinBy] at h
  | cons c cs ih =>
    cases hm : firstMinBy f cs with
    | none =>
      rw [firstMinBy, hm] at h
      injection h with h
      simp [h]
    | some m =>
      rw [firstMinBy, hm] at h
      dsimp only at h
      split_ifs at h with hmc
      · injection h with h
        subst h
        exact List.mem_cons_of_mem _ (ih hm)
      · injection h with h
        simp [h]

theorem firstMinBy_min {α : Type} (f : α → ℚ) :
    ∀ {l : List α} {a : α}, firstMinBy f l = some a → ∀ b ∈ l, f a ≤ f b := by
  intro l
  induction l with
  | nil => intro a h; simp [firstMinBy] at h
  | cons c cs ih =>
    intro a h b hb
    cases hm : firstMinBy f cs with
    | none =>
      have hcs : cs = [] := (firstMinBy_eq_none f cs).1 hm
      subst hcs
      rw [firstMinBy] at h
      injection h with h
      subst h
      simp at hb
      simp [hb]
    | some m =>
      rw [firstMinBy, hm] at h
      dsimp only at h
      rcases List.mem_cons.1 hb with rfl | hbcs
      · split_ifs at h with hmc
        · injection h with h; subst h; exact le_of_lt hmc
        · injection h with h; subst h; exact le_refl _
      · split_ifs at h with hmc
        · injection h with h; subst h; exact ih hm b hbcs
        · injection h with h
          subst h
          have h2 := ih hm b hbcs
          push_neg at hmc
          linarith

theorem any_startsWith_false {symbol : String} {positions : List BrokerPosition}
    (hpos : ∀ p ∈ positions, pyStartsWith p.symbol symbol = false) :
    (positions.any fun p => pyStartsWith p.symbol symbol) = false := by
  rw [List.any_eq_false]
  intro p hp
  simp [hpos p hp]

theorem execVS_entry_iff (symbol : String) (positions : List BrokerPosition) (h i : ℚ)
    (price : Option ℚ) (contracts : List OptionContract) (mo : Bool) (bp : ℚ)
    (hpos : ∀ p ∈ positions, pyStartsWith p.symbol symbol = false) :
    ((execute_volatility_straddle symbol positions (some h) (some i) price contracts mo
        bp).enteredEntry = true)
      ↔ i > 1.2 * h := by
  unfold execute_volatility_straddle
  rw [any_startsWith_false hpos]
  dsimp only
  by_cases hc : i > 1.2 * h
  · rw [if_pos hc]
    cases price with
    | none => simpa [StraddleOutcome.enteredEntry] using hc
    | some p =>
      rcases hfs : find_suitable_contracts contracts (some p) with _ | ⟨c, q⟩
      · simpa [hfs, StraddleOutcome.enteredEntry] using hc
      · cases mo <;> simpa [hfs, StraddleOutcome.enteredEntry] using hc
  · rw [if_neg hc]
    simpa [StraddleOutcome.enteredEntry] using hc

theorem execVS_noEntry (symbol : String) (positions : List BrokerPosition) (h i : ℚ)
    (price : Option ℚ) (contracts : List OptionContract) (mo : Bool) (bp : ℚ)
    (hpos : ∀ p ∈ positions, pyStartsWith p.symbol symbol = false)
    (hc : ¬ i > 1.2 * h) :
    execute_volatility_straddle symbol positions (some h) (some i) price contracts mo bp
      = .noEntry := by
  unfold execute_volatility_straddle
  rw [any_startsWith_false hpos]
  dsimp only
  rw [if_neg hc]
  simp

theorem alpaca_entry_iff (h i equity : ℚ) (f : ℤ → Option StraddlePosition) :
    alpaca_main_cycle true h i equity f ≠ .noEntry ↔ i > h * 1.2 := by
  unfold alpaca_main_cycle
  by_cases hc : i > h * 1.2
  · simp only [hc, true_and, if_pos (And.intro hc rfl)]
    split_ifs <;> simp [hc]
  · simp [hc]

theorem execVS_ordered_inv (symbol : String) (positions : List BrokerPosition)
    (hv iv price : Option ℚ) (contracts : List OptionContract) (mo : Bool) (bp : ℚ)
    (c p : OptionContract) (cost : ℚ) (n : ℤ)
    (h : execute_volatility_straddle symbol positions hv iv price contracts mo bp
      = .ordered c p cost n) :
    cost = (c.close_price + p.close_price) * 2 ∧ n = computeStraddleQuantity bp cost 1 := by
  unfold execute_volatility_straddle at h
  by_cases hany : (positions.any fun p => pyStartsWith p.symbol symbol) = true
  · rw [if_pos hany] at h
    exact absurd h (by simp)
  · rw [if_neg hany] at h
    rcases hv with _ | h0 <;> rcases iv with _ | i0 <;> dsimp only at h
    · exact absurd h (by simp)
    · exact absurd h (by simp)
    · exact absurd h (by simp)
    · by_cases hc : i0 > 1.2 * h0
      · rw [if_pos hc] at h
        rcases price with _ | pr <;> dsimp only at h
        · exact absurd h (by simp)
        · rcases hfs : find_suitable_contracts contracts (some pr) with _ | ⟨cc, qq⟩ <;>
            rw [hfs] at h <;> dsimp only at h
          · exact absurd h (by simp)
          · by_cases hmo : (!mo) = true
            · rw [if_pos hmo] at h
              exact absurd h (by simp)
            · rw [if_neg hmo] at h
              simp only [StraddleOutcome.ordered.injEq] at h
              obtain ⟨rfl, rfl, rfl, rfl⟩ := h
              exact ⟨rfl, rfl⟩
      · rw [if_neg hc] at h
        exact absurd h (by simp)

theorem execute_straddle_inv (contracts : List OptionContract) (last_price : ℚ)
    (qty : ℤ) (submitOk : Bool) (pos : StraddlePosition)
    (h : execute_straddle contracts last_price qty submitOk = some pos) :
    pos.entry_price = (pos.call_contract.price + pos.put_contract.price) * 100 * (qty : ℚ)
      ∧ pos.entry_iv
        = (pos.call_contract.implied_volatility + pos.put_contract.implied_volatility) / 2
      ∧ pos.quantity = qty := by
  unfold execute_straddle at h
  rcases hatm : alpaca_atm_strike contracts last_price with _ | atm <;> rw [hatm] at h <;>
    dsimp only at h
  · exact absurd h (by simp)
  · rcases hcall : find_leg contracts atm .call with _ | call <;> rw [hcall] at h <;>
      rcases hput : find_leg contracts atm .put with _ | put <;> rw [hput] at h <;>
      dsimp only at h
    · exact absurd h (by simp)
    · exact absurd h (by simp)
    · exact absurd h (by simp)
    · split_ifs at h
      injection h with h
      subst h
      exact ⟨rfl, rfl, rfl⟩

theorem execute_straddle_fail (contracts : List OptionContract) (last_price : ℚ) (qty : ℤ) :
    execute_straddle contracts last_price qty false = none := by
  unfold execute_straddle
  rcases alpaca_atm_strike contracts last_price with _ | atm
  · rfl
  · dsimp only
    rcases find_leg contracts atm .call with _ | call <;>
      rcases find_leg contracts atm .put with _ | put <;> simp

theorem alpaca_iv_of_legs (contracts : List OptionContract) (last_price atm : ℚ)
    (c p : OptionContract)
    (h1 : alpaca_atm_strike contracts last_price = some atm)
    (h2 : find_leg contracts atm .call = some c)
    (h3 : find_leg contracts atm .put = some p) :
    alpaca_get_current_iv contracts last_price
      = (c.implied_volatility + p.implied_volatility) / 2 := by
  unfold alpaca_get_current_iv
  rw [h1]
  dsimp only
  rw [h2, h3]

theorem alpaca_atm_is_nearest (contracts : List OptionContract) (last_price : ℚ) (nexp : ℕ)
    (atm : ℚ)
    (h1 : alpaca_nearest_expiration contracts = some nexp)
    (h2 : alpaca_atm_strike contracts last_price = some atm) :
    atm ∈ (contracts.filter (fun c => c.expiration_date == nexp)).map (fun c => c.strike_price)
      ∧ ∀ s ∈ (contracts.filter (fun c => c.expiration_date == nexp)).map
          (fun c => c.strike_price),
          |atm - last_price| ≤ |s - last_price| := by
  unfold alpaca_atm_strike at h2
  rw [h1] at h2
  dsimp only at h2
  have hmem := firstMinBy_mem _ h2
  have hmin := firstMinBy_min _ h2
  rw [alpaca_strikes_at, List.mem_insertionSort] at hmem
  refine ⟨hmem, fun s hs => hmin s ?_⟩
  rw [alpaca_strikes_at, List.mem_insertionSort]
  exact hs

theorem find_leg_spec (contracts : List OptionContract) (atm : ℚ) (k : ContractType)
    (c : OptionContract) (h : find_leg contracts atm k = some c) :
    c ∈ contracts ∧ c.strike_price = atm ∧ c.type = k := by
  unfold find_leg at h
  have hmem := List.mem_of_find?_eq_some h
  have hp := List.find?_some h
  simp only [decide_eq_true_eq] at hp
  exact ⟨hmem, hp.1, hp.2⟩

theorem monitor_only_spy (iv1 iv2 : String → ℚ) (mv : String → ℚ)
    (ps : List StraddlePosition) (hspy : iv1 "SPY" = iv2 "SPY") :
    monitor_positions_step iv1 mv ps = monitor_positions_step iv2 mv ps := by
  unfold monitor_positions_step
  rw [hspy]

/-- C1: with both volatility figures available (and the evaluation not
short-circuited by an already-open position), the straddle order
submission path is entered iff `currentIV > 1.2 * historicalVolatility`;
at equality no entry is triggered, in both variants. -/
theorem entry_condition_strict_iff (symbol : String) (positions : List BrokerPosition)
    (h i : ℚ) (price : Option ℚ) (contracts : List OptionContract) (mo : Bool)
    (bp equity : ℚ) (executeResult : ℤ → Option StraddlePosition)
    (hpos : ∀ p ∈ positions, pyStartsWith p.symbol symbol = false) :
    (((execute_volatility_straddle symbol positions (some h) (some i) price contracts mo
        bp).enteredEntry = true) ↔ i > 1.2 * h)
    ∧ (alpaca_main_cycle true h i equity executeResult ≠ .noEntry ↔ i > h * 1.2)
    ∧ (i = 1.2 * h →
        execute_volatility_straddle symbol positions (some h) (some i) price contracts mo bp
          = .noEntry) := by
  refine ⟨execVS_entry_iff _ _ _ _ _ _ _ _ hpos, alpaca_entry_iff _ _ _ _,
    fun he => execVS_noEntry _ _ _ _ _ _ _ _ hpos ?_⟩
  rw [he]
  exact lt_irrefl _

/-- Witness for C1 at a concrete input. -/
theorem entry_condition_strict_iff_witness :
    (((execute_volatility_straddle "SPY" [] (some 1) (some 2) none [] false
        0).enteredEntry = true) ↔ (2 : ℚ) > 1.2 * 1)
    ∧ (alpaca_main_cycle true 1 2 0 (fun _ => none) ≠ .noEntry ↔ (2 : ℚ) > 1 * 1.2)
    ∧ ((2 : ℚ) = 1.2 * 1 →
        execute_volatility_straddle "SPY" [] (some 1) (some 2) none [] false 0 = .noEntry) :=
  entry_condition_strict_iff "SPY" [] 1 2 none [] false 0 0 (fun _ => none) (by simp)

/-- C2: whenever the broker position list contains a symbol-prefix match,
`execute_volatility_straddle` returns immediately and in particular never
reaches an order submission; quantifying over all other inputs covers the
same and every subsequent cycle in which the position is still reported. -/
theorem existing_position_skips_entry (symbol : String) (positions : List BrokerPosition)
    (hv iv price : Option ℚ) (contracts : List OptionContract) (mo : Bool) (bp : ℚ)
    (hopen : ∃ p ∈ positions, pyStartsWith p.symbol symbol = true) :
    execute_volatility_straddle symbol positions hv iv price contracts mo bp
      = .skippedExisting
    ∧ ∀ c q cost n,
        execute_volatility_straddle symbol positions hv iv price contracts mo bp
          ≠ .ordered c q cost n := by
  have hany : (positions.any fun p => pyStartsWith p.symbol symbol) = true := by
    rw [List.any_eq_true]
    obtain ⟨p, hp, hs⟩ := hopen
    exact ⟨p, hp, hs⟩
  have h1 : execute_volatility_straddle symbol positions hv iv price contracts mo bp
      = .skippedExisting := by
    unfold execute_volatility_straddle
    rw [hany]
    simp
  exact ⟨h1, fun c q cost n => by rw [h1]; simp⟩

/-- Witness for C2: an open SPY leg blocks a new SPY straddle even though
every other entry condition holds. -/
theorem existing_position_skips_entry_witness :
    execute_volatility_straddle "SPY" [⟨"SPY250620C00105000"⟩] (some 1) (some 100) (some 100)
      [demoCall, demoPut] true 1000 = .skippedExisting
    ∧ ∀ c q cost n,
        execute_volatility_straddle "SPY" [⟨"SPY250620C00105000"⟩] (some 1) (some 100)
          (some 100) [demoCall, demoPut] true 1000 ≠ .ordered c q cost n :=
  existing_position_skips_entry "SPY" [⟨"SPY250620C00105000"⟩] (some 1) (some 100) (some 100)
    [demoCall, demoPut] true 1000 (by decide)

/-- C3 counterexample: with `historicalVolatility = 0` and `currentIV = 1`
the engine does trigger an entry and submits an order, contradicting the
claim that a zero historical volatility suppresses entry. -/
theorem zero_hv_entry_counterexample :
    execute_volatility_straddle "SPY" [] (some 0) (some 1) (some 100) [demoCall, demoPut]
      true 1000 = .ordered demoCall demoPut 5 1 := by
  norm_num [execute_volatility_straddle, find_suitable_contracts, find_nearest_strike_contract,
    nearestStep, minStepBy, passesFilter, computeStraddleQuantity, demoCall, demoPut,
    List.foldl, Rat.floor_def]

/-- C3 amended: when `historicalVolatility = 0` the guard
`currentIV > 1.2 * 0` degenerates to `currentIV > 0`, so entry is
triggered iff the current IV is positive (no division occurs: the guard is
a multiplication; only a `None` volatility short-circuits). -/
theorem zero_hv_entry_iff_pos_iv (symbol : String) (positions : List BrokerPosition)
    (i : ℚ) (price : Option ℚ) (contracts : List OptionContract) (mo : Bool)
    (bp equity : ℚ) (executeResult : ℤ → Option StraddlePosition)
    (hpos : ∀ p ∈ positions, pyStartsWith p.symbol symbol = false) :
    (((execute_volatility_straddle symbol positions (some 0) (some i) price contracts mo
        bp).enteredEntry = true) ↔ 0 < i)
    ∧ (alpaca_main_cycle true 0 i equity executeResult ≠ .noEntry ↔ 0 < i) := by
  constructor
  · rw [execVS_entry_iff _ _ _ _ _ _ _ _ hpos]
    constructor <;> intro hx <;> [linarith; linarith]
  · rw [alpaca_entry_iff]
    constructor <;> intro hx <;> [linarith; linarith]

/-- Witness for C3's amended claim at a concrete input. -/
theorem zero_hv_entry_iff_pos_iv_witness :
    (((execute_volatility_straddle "SPY" [] (some 0) (some 1) none [] false
        0).enteredEntry = true) ↔ (0 : ℚ) < 1)
    ∧ (alpaca_main_cycle true 0 1 0 (fun _ => none) ≠ .noEntry ↔ (0 : ℚ) < 1) :=
  zero_hv_entry_iff_pos_iv "SPY" [] 1 none [] false 0 0 (fun _ => none) (by simp)

/-- C4: the position sizer is `⌊buyingPower / perStraddleCost⌋` clamped to
`[0, maxStraddles]` (the code instantiates `maxStraddles = 1`), with the
three example values of the specification. -/
theorem straddle_quantity_clamped (bp cost : ℚ) (maxS : ℤ)
    (h1 : 0 ≤ bp) (h2 : 0 < cost) (h3 : 0 ≤ maxS) :
    computeStraddleQuantity bp cost maxS = max 0 (min ⌊bp / cost⌋ maxS)
    ∧ computeStraddleQuantity 1000 600 1 = 1
    ∧ computeStraddleQuantity 500 600 1 = 0
    ∧ computeStraddleQuantity 5000 600 1 = 1 := by
  refine ⟨?_, by norm_num [computeStraddleQuantity], by norm_num [computeStraddleQuantity],
    by norm_num [computeStraddleQuantity]⟩
  unfold computeStraddleQuantity
  have hf : (0 : ℤ) ≤ ⌊bp / cost⌋ := Int.floor_nonneg.mpr (div_nonneg h1 h2.le)
  rw [max_eq_right (le_min hf h3)]

/-- Witness for C4 at a concrete input. -/
theorem straddle_quantity_clamped_witness :
    computeStraddleQuantity 1000 600 1 = max 0 (min ⌊(1000 : ℚ) / 600⌋ 1)
    ∧ computeStraddleQuantity 1000 600 1 = 1
    ∧ computeStraddleQuantity 500 600 1 = 0
    ∧ computeStraddleQuantity 5000 600 1 = 1 :=
  straddle_quantity_clamped 1000 600 1 (by norm_num) (by norm_num) (by norm_num)

/-- C5: evaluating `execute_volatility_straddle` at buying power 4 with a
per-straddle sizing cost of 5 yields `position_size = 0`, yet
`place_straddle_order` is still invoked (with quantity 0): the
improved_options variant has no `position_size > 0` guard before the
submission call. -/
theorem zero_quantity_order_submitted :
    execute_volatility_straddle "SPY" [] (some (1/10)) (some 1) (some 100)
      [demoCall, demoPut] true 4 = .ordered demoCall demoPut 5 0 := by
  norm_num [execute_volatility_straddle, find_suitable_contracts, find_nearest_strike_contract,
    nearestStep, minStepBy, passesFilter, computeStraddleQuantity, demoCall, demoPut,
    List.foldl, Rat.floor_def]

/-- C6: `find_nearest_strike_contract` equals the first-encountered
minimizer of `|strike - target|` over the kind/OTM-filtered listing
(`firstMinBy` is the spec's tie-break rule), returns `none` iff the filter
leaves nothing, and any returned contract passes the filter and minimizes
the strike distance. -/
theorem nearest_strike_characterization (contracts : List OptionContract) (target_price : ℚ)
    (is_call otm_only : Bool) :
    find_nearest_strike_contract contracts target_price is_call otm_only
      = firstMinBy (fun d => |d.strike_price - target_price|)
          (contracts.filter (passesFilter target_price is_call otm_only))
    ∧ (find_nearest_strike_contract contracts target_price is_call otm_only = none
        ↔ contracts.filter (passesFilter target_price is_call otm_only) = [])
    ∧ ∀ c, find_nearest_strike_contract contracts target_price is_call otm_only = some c →
        c ∈ contracts.filter (passesFilter target_price is_call otm_only)
        ∧ ∀ b ∈ contracts.filter (passesFilter target_price is_call otm_only),
            |c.strike_price - target_price| ≤ |b.strike_price - target_price| := by
  have heq := find_nearest_eq_firstMinBy contracts target_price is_call otm_only
  refine ⟨heq, ?_, ?_⟩
  · rw [heq]
    exact firstMinBy_eq_none _ _
  · intro c hc
    rw [heq] at hc
    exact ⟨firstMinBy_mem _ hc, firstMinBy_min _ hc⟩

/-- Witness for C6: two calls tie at distance 5 from the target; the
first-listed one is selected and is minimal. -/
theorem nearest_strike_characterization_witness :
    demoCall ∈ ([demoCall, tieCall].filter (passesFilter 100 true false))
    ∧ ∀ b ∈ [demoCall, tieCall].filter (passesFilter 100 true false),
        |demoCall.strike_price - 100| ≤ |b.strike_price - 100| :=
  (nearest_strike_characterization [demoCall, tieCall] 100 true false).2.2 demoCall (by
    norm_num [find_nearest_strike_contract, nearestStep, minStepBy, passesFilter,
      demoCall, tieCall, List.foldl])

/-- C7 counterexample: in the improved_options variant a 5-point price
series (fewer than 20 observations) produces a numeric volatility, not the
unavailable sentinel. -/
theorem short_series_vol_counterexample :
    (improved_get_historical_volatility (fun _ => 1) [1, 2, 3, 4, 5]).isSome = true
    ∧ [(1 : ℚ), 2, 3, 4, 5].length < 20 := by
  constructor
  · rfl
  · decide

/-- C7 amended: the alpaca_options_bot variant returns the sentinel `0.0`
below 20 observations, but the improved_options variant only requires 2:
below 2 it returns `None`, and from 2 points on it returns a computed
numeric value. -/
theorem short_series_vol_sentinels (annualizedStd : List ℚ → ℚ) (closes prices : List ℚ)
    (h1 : closes.length < 20) (h2 : prices.length < 2) :
    alpaca_get_historical_volatility annualizedStd closes = 0
    ∧ improved_get_historical_volatility annualizedStd prices = none
    ∧ ∀ prices2 : List ℚ, 2 ≤ prices2.length →
        improved_get_historical_volatility annualizedStd prices2
          = some (annualizedStd (simpleReturns prices2)) := by
  refine ⟨?_, ?_, ?_⟩
  · unfold alpaca_get_historical_volatility
    rw [if_pos h1]
  · unfold improved_get_historical_volatility
    rw [if_pos h2]
  · intro ps hps
    unfold improved_get_historical_volatility
    rw [if_neg (by omega)]

/-- Witness for C7's amended claim at concrete inputs. -/
theorem short_series_vol_sentinels_witness :
    alpaca_get_historical_volatility (fun _ => 1) [1, 2] = 0
    ∧ improved_get_historical_volatility (fun _ => 1) [1] = none
    ∧ improved_get_historical_volatility (fun _ => 1) [1, 2] = some 1 := by
  have h := short_series_vol_sentinels (fun _ => 1) [1, 2] [1] (by decide) (by decide)
  exact ⟨h.1, h.2.1, h.2.2 [1, 2] (by decide)⟩

/-- C8 counterexample: the improved_options variant averages the implied
volatilities of ALL calls of the first chain (here 2/5), which differs
from the spec's ATM call/put pair average (here 3/10) on the same option
data: two calls at strikes 100 and 110 (IVs 1/5 and 3/5), one put at
strike 100 (IV 2/5), last traded price 100. -/
theorem current_iv_atm_counterexample :
    improved_get_current_iv
        [{ calls := [⟨100, some (1/5)⟩, ⟨110, some (3/5)⟩], puts := [⟨100, some (2/5)⟩] }]
      = some (2/5)
    ∧ specAtmPairAverage [ivCall100, ivCall110, ivPut100] 100 = some (3/10)
    ∧ (2/5 : ℚ) ≠ 3/10 := by
  refine ⟨?_, ?_, by norm_num⟩
  · norm_num [improved_get_current_iv, List.filterMap]
  · norm_num [specAtmPairAverage, alpaca_nearest_expiration, firstMinBy, List.find?,
      List.foldl, ivCall100, ivCall110, ivPut100, decide_call_call, decide_call_put,
      decide_put_call, decide_put_put]

/-- C8 amended: in the alpaca_options_bot variant the current IV is the
average of the IVs of the first call and first put found at the computed
ATM strike (matched by strike only, over all expirations), and the ATM
strike does minimize the distance to the last price among the strikes at
the nearest expiration; the improved_options variant instead depends only
on the first chain, averaging all call IVs. -/
theorem current_iv_variant_behavior :
    (∀ (contracts : List OptionContract) (last_price atm : ℚ) (c p : OptionContract),
        alpaca_atm_strike contracts last_price = some atm →
        find_leg contracts atm .call = some c →
        find_leg contracts atm .put = some p →
          alpaca_get_current_iv contracts last_price
            = (c.implied_volatility + p.implied_volatility) / 2
          ∧ c ∈ contracts ∧ p ∈ contracts
          ∧ c.strike_price = atm ∧ p.strike_price = atm
          ∧ c.type = .call ∧ p.type = .put)
    ∧ (∀ (contracts : List OptionContract) (last_price : ℚ) (nexp : ℕ) (atm : ℚ),
        alpaca_nearest_expiration contracts = some nexp →
        alpaca_atm_strike contracts last_price = some atm →
          atm ∈ (contracts.filter (fun c => c.expiration_date == nexp)).map
            (fun c => c.strike_price)
          ∧ ∀ s ∈ (contracts.filter (fun c => c.expiration_date == nexp)).map
              (fun c => c.strike_price),
              |atm - last_price| ≤ |s - last_price|)
    ∧ (∀ (chain : YfinanceChain) (rest rest2 : List YfinanceChain),
        improved_get_current_iv (chain :: rest) = improved_get_current_iv (chain :: rest2)) := by
  refine ⟨?_, ?_, ?_⟩
  · intro contracts lp atm c p h1 h2 h3
    obtain ⟨hcm, hcs, hct⟩ := find_leg_spec _ _ _ _ h2
    obtain ⟨hpm, hps, hpt⟩ := find_leg_spec _ _ _ _ h3
    exact ⟨alpaca_iv_of_legs _ _ _ _ _ h1 h2 h3, hcm, hpm, hcs, hps, hct, hpt⟩
  · intro contracts lp nexp atm h1 h2
    exact alpaca_atm_is_nearest _ _ _ _ h1 h2
  · intro chain rest rest2
    rfl

/-- Witness for C8's amended claim at a concrete chain. -/
theorem current_iv_variant_behavior_witness :
    (alpaca_get_current_iv [atmCall, atmPut] 100
        = (atmCall.implied_volatility + atmPut.implied_volatility) / 2
      ∧ atmCall ∈ [atmCall, atmPut] ∧ atmPut ∈ [atmCall, atmPut]
      ∧ atmCall.strike_price = 100 ∧ atmPut.strike_price = 100
      ∧ atmCall.type = ContractType.call ∧ atmPut.type = ContractType.put)
    ∧ ((100 : ℚ) ∈ ([atmCall, atmPut].filter
          (fun c => c.expiration_date == 20250620)).map (fun c => c.strike_price))
    ∧ improved_get_current_iv [{ calls := [⟨100, some (1/5)⟩], puts := [] }]
        = improved_get_current_iv
            [{ calls := [⟨100, some (1/5)⟩], puts := [] }, { calls := [], puts := [] }] := by
  have hatm : alpaca_atm_strike [atmCall, atmPut] 100 = some 100 := by
    norm_num [alpaca_atm_strike, alpaca_nearest_expiration, alpaca_strikes_at, firstMinBy,
      List.foldl, List.insertionSort, List.orderedInsert, atmCall, atmPut]
  have hcall : find_leg [atmCall, atmPut] 100 .call = some atmCall := by
    norm_num [find_leg, List.find?, atmCall, atmPut, decide_call_call, decide_call_put,
      decide_put_call, decide_put_put]
  have hput : find_leg [atmCall, atmPut] 100 .put = some atmPut := by
    norm_num [find_leg, List.find?, atmCall, atmPut, decide_call_call, decide_call_put,
      decide_put_call, decide_put_put]
  have h1 := current_iv_variant_behavior.1 [atmCall, atmPut] 100 100 atmCall atmPut
    hatm hcall hput
  have hnexp : alpaca_nearest_expiration [atmCall, atmPut] = some 20250620 := by
    norm_num [alpaca_nearest_expiration, List.foldl, atmCall, atmPut]
  have h2 := current_iv_variant_behavior.2.1 [atmCall, atmPut] 100 20250620 100 hnexp hatm
  have h3 := current_iv_variant_behavior.2.2 { calls := [⟨100, some (1/5)⟩], puts := [] }
    [] [{ calls := [], puts := [] }]
  exact ⟨⟨h1.1, h1.2.1, h1.2.2.1, h1.2.2.2.1, h1.2.2.2.2.1, h1.2.2.2.2.2.1,
    h1.2.2.2.2.2.2⟩, h2.1, h3⟩

/-- C9 counterexample: a successful submission path of the
improved_options variant computes the straddle sizing cost as
`(callClose + putClose) * 2 = 5`, not
`(callPrice + putPrice) * 100 * quantity` (here 250), and records no
position object at all. -/
theorem straddle_cost_counterexample :
    execute_volatility_straddle "SPY" [] (some 1) (some 2) (some 100) [demoCall, demoPut]
      true 1000 = .ordered demoCall demoPut 5 1
    ∧ (5 : ℚ) ≠ (demoCall.close_price + demoPut.close_price) * 100 * 1 := by
  constructor
  · norm_num [execute_volatility_straddle, find_suitable_contracts,
      find_nearest_strike_contract, nearestStep, minStepBy, passesFilter,
      computeStraddleQuantity, demoCall, demoPut, List.foldl, Rat.floor_def]
  · norm_num [demoCall, demoPut]

/-- C9 amended: the alpaca_options_bot variant behaves as claimed (entry
cost `(callPrice + putPrice) * 100 * quantity`, entry IV the average of
the leg IVs, `None` and no record on submission failure); the
improved_options variant computes its per-straddle cost as
`(callClose + putClose) * 2` and keeps no local position record. -/
theorem straddle_record_behavior :
    (∀ (contracts : List OptionContract) (last_price : ℚ) (qty : ℤ) (submitOk : Bool)
        (pos : StraddlePosition),
        execute_straddle contracts last_price qty submitOk = some pos →
          pos.entry_price
            = (pos.call_contract.price + pos.put_contract.price) * 100 * (qty : ℚ)
          ∧ pos.entry_iv
            = (pos.call_contract.implied_volatility
                + pos.put_contract.implied_volatility) / 2
          ∧ pos.quantity = qty)
    ∧ (∀ (contracts : List OptionContract) (last_price : ℚ) (qty : ℤ),
        execute_straddle contracts last_price qty false = none)
    ∧ (∀ (symbol : String) (positions : List BrokerPosition) (hv iv price : Option ℚ)
        (contracts : List OptionContract) (mo : Bool) (bp : ℚ) (c p : OptionContract)
        (cost : ℚ) (n : ℤ),
        execute_volatility_straddle symbol positions hv iv price contracts mo bp
          = .ordered c p cost n →
          cost = (c.close_price + p.close_price) * 2) := by
  refine ⟨?_, ?_, ?_⟩
  · intro contracts lp qty so pos h
    exact execute_straddle_inv _ _ _ _ _ h
  · intro contracts lp qty
    exact execute_straddle_fail _ _ _
  · intro symbol positions hv iv price contracts mo bp c p cost n h
    exact (execVS_ordered_inv _ _ _ _ _ _ _ _ _ _ _ _ h).1

/-- Witness for C9's amended claim at concrete inputs. -/
theorem straddle_record_behavior_witness :
    ((⟨atmCall, atmPut, 1/4, 380, 1⟩ : StraddlePosition).entry_price
        = ((⟨atmCall, atmPut, 1/4, 380, 1⟩ : StraddlePosition).call_contract.price
            + (⟨atmCall, atmPut, 1/4, 380, 1⟩ : StraddlePosition).put_contract.price)
            * 100 * ((1 : ℤ) : ℚ))
    ∧ execute_straddle [atmCall, atmPut] 100 1 false = none
    ∧ (5 : ℚ) = (demoCall.close_price + demoPut.close_price) * 2 := by
  have h1 := straddle_record_behavior.1 [atmCall, atmPut] 100 1 true
    ⟨atmCall, atmPut, 1/4, 380, 1⟩ (by
      norm_num [execute_straddle, alpaca_atm_strike, alpaca_nearest_expiration,
        alpaca_strikes_at, firstMinBy, find_leg, List.find?, List.foldl,
        List.insertionSort, List.orderedInsert, atmCall, atmPut,
        StraddlePosition.mk.injEq, decide_call_call, decide_call_put, decide_put_call,
        decide_put_put])
  have h2 := straddle_record_behavior.2.1 [atmCall, atmPut] 100 1
  have h3 := straddle_record_behavior.2.2 "SPY" [] (some 1) (some 2) (some 100)
    [demoCall, demoPut] true 1000 demoCall demoPut 5 1 (by
      norm_num [execute_volatility_straddle, find_suitable_contracts,
        find_nearest_strike_contract, nearestStep, minStepBy, passesFilter,
        computeStraddleQuantity, demoCall, demoPut, List.foldl, Rat.floor_def])
  exact ⟨h1.1, h2, h3⟩

/-- C10: one monitoring pass computes the exit IV once via
`get_current_iv("SPY")`: the surviving positions depend only on the IV
collaborator's value at the fixed symbol "SPY", whatever underlying each
position was opened on, and every position's exit test uses exactly that
value. -/
theorem monitor_uses_spy_only (iv1 iv2 mv : String → ℚ) (ps : List StraddlePosition)
    (hspy : iv1 "SPY" = iv2 "SPY") :
    monitor_positions_step iv1 mv ps = monitor_positions_step iv2 mv ps
    ∧ monitor_positions_step iv1 mv ps
      = ps.filter (fun pos =>
          !(monitor_exit_condition (iv1 "SPY") pos (mv pos.call_contract.symbol)
              (mv pos.put_contract.symbol))) :=
  ⟨monitor_only_spy _ _ _ _ hspy, rfl⟩

/-- Witness for C10: two IV collaborators that agree on "SPY" but differ
everywhere else produce identical monitoring decisions. -/
theorem monitor_uses_spy_only_witness :
    monitor_positions_step (fun s => if s = "SPY" then 1 else 5) (fun _ => 0)
        [⟨atmCall, atmPut, 1, 1000, 1⟩]
      = monitor_positions_step (fun s => if s = "SPY" then 1 else 7) (fun _ => 0)
          [⟨atmCall, atmPut, 1, 1000, 1⟩]
    ∧ monitor_positions_step (fun s => if s = "SPY" then 1 else 5) (fun _ => 0)
        [⟨atmCall, atmPut, 1, 1000, 1⟩]
      = [(⟨atmCall, atmPut, 1, 1000, 1⟩ : StraddlePosition)].filter (fun pos =>
          !(monitor_exit_condition ((fun s => if s = "SPY" then (1 : ℚ) else 5) "SPY") pos
              ((fun _ => (0 : ℚ)) pos.call_contract.symbol)
              ((fun _ => (0 : ℚ)) pos.put_contract.symbol))) :=
  monitor_uses_spy_only (fun s => if s = "SPY" then 1 else 5)
    (fun s => if s = "SPY" then 1 else 7) (fun _ => 0) [⟨atmCall, atmPut, 1, 1000, 1⟩]
    (by norm_num)
